import Mathlib

/-!
Shallow embedding of the real-time collaboration gateway in
`backend/src/services/websocket.ts`, and proofs about it.

The two module-level registries `clients` (user id → set of sockets) and
`projectClients` (project id → set of sockets) are JavaScript `Map`s whose
values are JavaScript `Set`s of socket objects.  We model sockets by numeric
identifiers, a `Map` by an association list with unique keys kept in insertion
order, and a `Set` by a duplicate-free list kept in insertion order.  The
mutable per-socket fields (`userId`, `projectId`, `isAlive`, and the
transport's `readyState`) live in a finite map from socket id to a `WS`
record, so that aliasing through the registries is represented faithfully.
External calls (`jwt.verify` plus the user lookup, and the project access
query) are passed in as function parameters.
-/

namespace Gateway

/-- JavaScript `Map.get`: the value at the first (unique) binding of `k`. -/
def jsGet {α β : Type} [DecidableEq α] : List (α × β) → α → Option β
  | [], _ => none
  | (k1, v) :: rest, k => if k1 = k then some v else jsGet rest k

/-- JavaScript `Map.has`. -/
def jsHas {α β : Type} [DecidableEq α] (m : List (α × β)) (k : α) : Bool :=
  (jsGet m k).isSome

/-- JavaScript `Map.set`: replace the binding in place, else append. -/
def jsSet {α β : Type} [DecidableEq α] : List (α × β) → α → β → List (α × β)
  | [], k, v => [(k, v)]
  | (k1, v1) :: rest, k, v =>
      if k1 = k then (k, v) :: rest else (k1, v1) :: jsSet rest k v

/-- JavaScript `Map.delete`.  `Map` keys are unique, so dropping every
binding of `k` agrees with dropping the first. -/
def jsDelete {α β : Type} [DecidableEq α] (m : List (α × β)) (k : α) :
    List (α × β) :=
  m.filter (fun p => decide (p.1 ≠ k))

/-- JavaScript `Set.add` on a duplicate-free insertion-ordered list. -/
def setAdd (s : List Nat) (x : Nat) : List Nat :=
  if x ∈ s then s else s ++ [x]

/-- JavaScript `Set.delete`. -/
def setDelete (s : List Nat) (x : Nat) : List Nat :=
  s.filter (fun y => decide (y ≠ x))

/-- The mutable fields of one `AuthenticatedWebSocket`
(websocket.ts lines 6-10): `userId?`, `projectId?`, `isAlive?`, and the
transport state (`readyState === WebSocket.OPEN` becomes `isOpen`). -/
structure WS where
  userId : Option String
  projectId : Option String
  isAlive : Bool
  isOpen : Bool
deriving Repr, DecidableEq

/-- The gateway state: every socket's fields plus the two module-level
registries `clients` and `projectClients` (websocket.ts lines 18-19). -/
structure SState where
  conns : List (Nat × WS)
  clients : List (String × List Nat)
  projectClients : List (String × List Nat)
deriving Repr, DecidableEq

/-- A row of the `users` table as read by `handleAuthentication`
(websocket.ts lines 132-135). -/
structure UserRec where
  id : String
  email : String
  displayName : String
deriving Repr, DecidableEq

/-- Outbound messages, as serialized by the `ws.send(JSON.stringify(...))`
calls throughout websocket.ts.  Opaque relayed payloads are modelled as a
`String`; the spread `{...payload, userId, timestamp}` becomes the stamped
constructors below. -/
inductive OutMsg where
  | pong
  | error (message : String)
  | authError (message : String)
  | authSuccess (userId email displayName : String)
  | projectJoined (projectId projectName : String)
  | projectLeft (projectId : Option String)
  | userJoined (userId projectId : String)
  | userLeft (userId : Option String) (projectId : String)
  | projectUpdated (payload : String) (userId : String) (timestamp : Nat)
  | codeChanged (payload : String) (userId : String) (timestamp : Nat)
  | cursorMoved (payload : String) (userId : String) (timestamp : Nat)
deriving Repr, DecidableEq

/-- Inbound envelopes after `JSON.parse`, keyed by the recognized `type`
enumeration of the dispatch switch (websocket.ts lines 32-63).  A `type`
outside the enumeration is `unknown`; a frame that fails to parse at all is
represented by `Option.none` at the router. -/
inductive InMsg where
  | auth (token : Option String)
  | joinProject (projectId : Option String)
  | leaveProject (projectId : Option String)
  | projectUpdate (payload : String)
  | codeChange (payload : String)
  | cursorPosition (payload : String)
  | ping
  | unknown (msgType : String)
deriving Repr, DecidableEq

/-- Look up a socket's fields. -/
def getConn (st : SState) (c : Nat) : Option WS :=
  jsGet st.conns c

/-- Mutate one socket's fields in place. -/
def updateConn (st : SState) (c : Nat) (f : WS → WS) : SState :=
  match jsGet st.conns c with
  | none => st
  | some ws => { st with conns := jsSet st.conns c (f ws) }

/-- `ws.readyState === WebSocket.OPEN` for the socket `c`. -/
def connIsOpen (st : SState) (c : Nat) : Bool :=
  match getConn st c with
  | some ws => ws.isOpen
  | none => false

/-- Socket `c` is currently in room `pid`'s member set. -/
def roomHas (st : SState) (pid : String) (c : Nat) : Prop :=
  c ∈ (jsGet st.projectClients pid).getD []

/-- Socket `c` is currently in user `uid`'s presence set. -/
def presenceHas (st : SState) (uid : String) (c : Nat) : Prop :=
  c ∈ (jsGet st.clients uid).getD []

instance (st : SState) (pid : String) (c : Nat) : Decidable (roomHas st pid c) := by
  unfold roomHas; infer_instance

instance (st : SState) (uid : String) (c : Nat) : Decidable (presenceHas st uid c) := by
  unfold presenceHas; infer_instance

/-- `broadcastToProject` (websocket.ts lines 317-328): look the room up in
`projectClients`; if absent, return with no deliveries; otherwise send the
message to every member socket that is not the excluded one and whose
transport is open.  The result is the delivery list `(recipient, message)`. -/
def broadcastToProject (st : SState) (projectId : String) (msg : OutMsg)
    (excludeWs : Option Nat) : List (Nat × OutMsg) :=
  match jsGet st.projectClients projectId with
  | none => []
  | some members =>
      (members.filter
        (fun c => decide (some c ≠ excludeWs) && connIsOpen st c)).map
        (fun c => (c, msg))

/-- `broadcastToUser` (websocket.ts lines 330-341). -/
def broadcastToUser (st : SState) (userId : String) (msg : OutMsg) :
    List (Nat × OutMsg) :=
  match jsGet st.clients userId with
  | none => []
  | some members =>
      (members.filter (fun c => connIsOpen st c)).map (fun c => (c, msg))

/-- `handleAuthentication` (websocket.ts lines 109-170).  `verify` models
`jwt.verify` followed by the active-user lookup: `Except.error m` covers the
missing-user reply (line 138) and the catch-all reply (line 165), with `m`
the message string sent; `Except.ok u` is a verified active user.  On
success the socket's `userId` is overwritten and the socket is added to the
user's presence set (creating it if absent); nothing is ever removed. -/
def handleAuthentication (verify : String → Except String UserRec)
    (st : SState) (c : Nat) (token : Option String) :
    SState × List (Nat × OutMsg) :=
  match token with
  | none => (st, [(c, .authError "Token required")])
  | some t =>
      match verify t with
      | .error m => (st, [(c, .authError m)])
      | .ok u =>
          let st1 := updateConn st c (fun ws => { ws with userId := some u.id })
          let prev := (jsGet st1.clients u.id).getD []
          let st2 := { st1 with clients := jsSet st1.clients u.id (setAdd prev c) }
          (st2, [(c, .authSuccess u.id u.email u.displayName)])

/-- `handleJoinProject` (websocket.ts lines 172-243).  `access pid uid` models
the `projects` query at lines 196-200: `some name` when the requester owns
the project or it is public (returning its name), `none` otherwise.  The
guards are, in source order: no `userId` → error reply; no `projectId` in the
payload → error reply; access denied → error reply; otherwise set
`ws.projectId`, add the socket to the room set (creating the entry if
absent), broadcast `user_joined` to the others, and reply `project_joined`. -/
def handleJoinProject (access : String → String → Option String)
    (st : SState) (c : Nat) (payload : Option String) :
    SState × List (Nat × OutMsg) :=
  match getConn st c with
  | none => (st, [])
  | some ws =>
      match ws.userId with
      | none => (st, [(c, .error "Authentication required")])
      | some uid =>
          match payload with
          | none => (st, [(c, .error "Project ID required")])
          | some pid =>
              match access pid uid with
              | none => (st, [(c, .error "Project not found or access denied")])
              | some pname =>
                  let st1 := updateConn st c (fun w => { w with projectId := some pid })
                  let prev := (jsGet st1.projectClients pid).getD []
                  let st2 := { st1 with
                    projectClients := jsSet st1.projectClients pid (setAdd prev c) }
                  let sends := broadcastToProject st2 pid (.userJoined uid pid) (some c)
                  (st2, sends ++ [(c, .projectJoined pid pname)])

/-- `handleLeaveProject` (websocket.ts lines 245-267).  No authentication
check.  If the socket has a current room with an entry in `projectClients`,
the socket is deleted from that set (the entry is kept even if it becomes
empty) and `user_left` is broadcast to the remaining members; then
`ws.projectId` is cleared and `project_left` is sent back echoing the
payload's `projectId`, whatever it was. -/
def handleLeaveProject (st : SState) (c : Nat) (payload : Option String) :
    SState × List (Nat × OutMsg) :=
  match getConn st c with
  | none => (st, [(c, .projectLeft payload)])
  | some ws =>
      let step :=
        match ws.projectId with
        | some pid =>
            match jsGet st.projectClients pid with
            | some members =>
                let st1 := { st with
                  projectClients := jsSet st.projectClients pid (setDelete members c) }
                (st1, broadcastToProject st1 pid (.userLeft ws.userId pid) (some c))
            | none => (st, [])
        | none => (st, [])
      let st2 := updateConn step.1 c (fun w => { w with projectId := none })
      (st2, step.2 ++ [(c, .projectLeft payload)])

/-- `handleProjectUpdate` (websocket.ts lines 269-283): if the socket lacks a
`userId` or a `projectId` it silently returns; otherwise it broadcasts the
payload stamped with the sender's user id and `Date.now()` to the socket's
room, excluding the sender. -/
def handleProjectUpdate (st : SState) (c : Nat) (payload : String) (now : Nat) :
    SState × List (Nat × OutMsg) :=
  match getConn st c with
  | none => (st, [])
  | some ws =>
      match ws.userId, ws.projectId with
      | some uid, some pid =>
          (st, broadcastToProject st pid (.projectUpdated payload uid now) (some c))
      | _, _ => (st, [])

/-- `handleCodeChange` (websocket.ts lines 285-299), same shape as
`handleProjectUpdate` with outbound type `code_changed`. -/
def handleCodeChange (st : SState) (c : Nat) (payload : String) (now : Nat) :
    SState × List (Nat × OutMsg) :=
  match getConn st c with
  | none => (st, [])
  | some ws =>
      match ws.userId, ws.projectId with
      | some uid, some pid =>
          (st, broadcastToProject st pid (.codeChanged payload uid now) (some c))
      | _, _ => (st, [])

/-- `handleCursorPosition` (websocket.ts lines 301-315), same shape with
outbound type `cursor_moved`. -/
def handleCursorPosition (st : SState) (c : Nat) (payload : String) (now : Nat) :
    SState × List (Nat × OutMsg) :=
  match getConn st c with
  | none => (st, [])
  | some ws =>
      match ws.userId, ws.projectId with
      | some uid, some pid =>
          (st, broadcastToProject st pid (.cursorMoved payload uid now) (some c))
      | _, _ => (st, [])

/-- First block of `cleanupConnection` (websocket.ts lines 344-350): remove
the socket from its user's presence set, deleting the entry if the set
becomes empty. -/
def cleanupClients (st : SState) (c : Nat) (userId : Option String) : SState :=
  match userId with
  | some uid =>
      match jsGet st.clients uid with
      | some s =>
          let s1 := setDelete s c
          if s1.isEmpty then { st with clients := jsDelete st.clients uid }
          else { st with clients := jsSet st.clients uid s1 }
      | none => st
  | none => st

/-- Second block of `cleanupConnection` (websocket.ts lines 352-367): remove
the socket from its room's member set, deleting the entry if the set becomes
empty, then broadcast `user_left` to the remaining members. -/
def cleanupProject (st : SState) (c : Nat) (ws : WS) :
    SState × List (Nat × OutMsg) :=
  match ws.projectId with
  | some pid =>
      match jsGet st.projectClients pid with
      | some s =>
          let s1 := setDelete s c
          let st2 :=
            if s1.isEmpty then
              { st with projectClients := jsDelete st.projectClients pid }
            else { st with projectClients := jsSet st.projectClients pid s1 }
          (st2, broadcastToProject st2 pid (.userLeft ws.userId pid) (some c))
      | none => (st, [])
  | none => (st, [])

/-- `cleanupConnection` (websocket.ts lines 343-368): the presence-set block
followed by the room-set block.  Note the source never clears `ws.userId` or
`ws.projectId` here. -/
def cleanupConnection (st : SState) (c : Nat) : SState × List (Nat × OutMsg) :=
  match getConn st c with
  | none => (st, [])
  | some ws => cleanupProject (cleanupClients st c ws.userId) c ws

/-- The message dispatch of the connection's `message` listener
(websocket.ts lines 28-71).  `none` stands for a frame on which `JSON.parse`
threw, handled by the catch block with an `error` reply (lines 64-70); an
unrecognized `type` only reaches the `default:` log statement (lines 61-62)
and sends nothing. -/
def routeFrame (verify : String → Except String UserRec)
    (access : String → String → Option String)
    (st : SState) (c : Nat) (frame : Option InMsg) (now : Nat) :
    SState × List (Nat × OutMsg) :=
  match frame with
  | none => (st, [(c, .error "Invalid message format")])
  | some m =>
      match m with
      | .auth t => handleAuthentication verify st c t
      | .joinProject p => handleJoinProject access st c p
      | .leaveProject p => handleLeaveProject st c p
      | .projectUpdate pl => handleProjectUpdate st c pl now
      | .codeChange pl => handleCodeChange st c pl now
      | .cursorPosition pl => handleCursorPosition st c pl now
      | .ping => (st, [(c, .pong)])
      | .unknown _ => (st, [])

/-- One socket's turn of the heartbeat sweep (websocket.ts lines 92-102)
composed with what `ws.terminate()` entails.  A socket that answered the last
probe has `isAlive` reset and is pinged (a transport-level frame, not an
application send).  A socket with `isAlive === false` gets
`cleanupConnection` (line 95) and then `ws.terminate()` (line 96); the `ws`
library destroys the socket and emits its `close` event, whose listener
(lines 74-77) runs `cleanupConnection` a second time. -/
def sweepConnection (st : SState) (c : Nat) : SState × List (Nat × OutMsg) :=
  match getConn st c with
  | none => (st, [])
  | some ws =>
      if ws.isAlive then
        (updateConn st c (fun w => { w with isAlive := false }), [])
      else
        let r1 := cleanupConnection st c
        let stClosed := updateConn r1.1 c (fun w => { w with isOpen := false })
        let r2 := cleanupConnection stClosed c
        (r2.1, r1.2 ++ r2.2)

/-! Concrete scenarios used to refute or to instantiate claims. -/

/-- One freshly accepted, unauthenticated socket. -/
def stUnauth : SState :=
  ⟨[(0, ⟨none, none, true, true⟩)], [], []⟩

/-- External collaborators that reject everything. -/
def verifyNone : String → Except String UserRec :=
  fun _ => .error "Authentication failed"

/-- Access check that denies everything. -/
def accessNone : String → String → Option String :=
  fun _ _ => none

/-- Socket 0 authenticated as user `u` and a member of room `r1`. -/
def stOneRoom : SState :=
  ⟨[(0, ⟨some "u", some "r1", true, true⟩)], [("u", [0])], [("r1", [0])]⟩

/-- Access check granting user `u` the project `r2` (named `P2`). -/
def accessR2 : String → String → Option String :=
  fun p u => if p = "r2" ∧ u = "u" then some "P2" else none

/-- Sockets 0 and 1 both in room `p`; socket 0 missed the last heartbeat
probe (`isAlive = false`). -/
def stStale : SState :=
  ⟨[(0, ⟨some "u", some "p", false, true⟩), (1, ⟨some "v", some "p", true, true⟩)],
   [("u", [0]), ("v", [1])],
   [("p", [0, 1])]⟩

/-- Three live sockets, all members of room `p`. -/
def stTrio : SState :=
  ⟨[(0, ⟨some "u", some "p", true, true⟩), (1, ⟨some "v", some "p", true, true⟩),
    (2, ⟨some "w", some "p", true, true⟩)],
   [("u", [0]), ("v", [1]), ("w", [2])],
   [("p", [0, 1, 2])]⟩

/-- Socket 0 authenticated as `u`, sole member of room `r`. -/
def stSolo : SState :=
  ⟨[(0, ⟨some "u", some "r", true, true⟩)], [("u", [0])], [("r", [0])]⟩

/-- Socket 0 authenticated as `u`, not yet in any room. -/
def stAuthedOnly : SState :=
  ⟨[(0, ⟨some "u", none, true, true⟩)], [("u", [0])], []⟩

/-- Access check granting user `u` the project `p` (named `Proj`). -/
def accessP : String → String → Option String :=
  fun q u => if q = "p" ∧ u = "u" then some "Proj" else none

/-- Socket 0 authenticated as `u1`, registered in `u1`'s presence set. -/
def stFirstUser : SState :=
  ⟨[(0, ⟨some "u1", none, true, true⟩)], [("u1", [0])], []⟩

/-- Credential check accepting only the token `tok2`, as user `u2`. -/
def verifyTok2 : String → Except String UserRec :=
  fun t => if t = "tok2" then .ok ⟨"u2", "e2", "d2"⟩ else .error "Authentication failed"

/-! Basic lemmas about the `Map` and `Set` model. -/

theorem jsGet_jsSet_self {α β : Type} [DecidableEq α] (m : List (α × β)) (k : α) (v : β) :
    jsGet (jsSet m k v) k = some v := by
  induction m with
  | nil => simp [jsSet, jsGet]
  | cons p rest ih =>
      obtain ⟨k1, v1⟩ := p
      by_cases h : k1 = k
      · simp [jsSet, h, jsGet]
      · simp [jsSet, h, jsGet, ih]

theorem jsGet_jsSet_ne {α β : Type} [DecidableEq α] (m : List (α × β)) (k k1 : α) (v : β)
    (h : k1 ≠ k) : jsGet (jsSet m k v) k1 = jsGet m k1 := by
  induction m with
  | nil => simp [jsSet, jsGet, Ne.symm h]
  | cons p rest ih =>
      obtain ⟨k2, v2⟩ := p
      by_cases h2 : k2 = k
      · subst h2
        simp [jsSet, jsGet, Ne.symm h]
      · simp [jsSet, h2, jsGet, ih]

theorem jsGet_jsDelete_self {α β : Type} [DecidableEq α] (m : List (α × β)) (k : α) :
    jsGet (jsDelete m k) k = none := by
  induction m with
  | nil => rfl
  | cons p rest ih =>
      obtain ⟨k1, v1⟩ := p
      by_cases h : k1 = k
      · simpa [jsDelete, h] using ih
      · simpa [jsDelete, jsGet, h] using ih

theorem mem_setAdd_self (s : List Nat) (x : Nat) : x ∈ setAdd s x := by
  unfold setAdd
  by_cases h : x ∈ s <;> simp [h]

theorem mem_setAdd_of_mem (s : List Nat) (x y : Nat) (hy : y ∈ s) : y ∈ setAdd s x := by
  unfold setAdd
  by_cases h : x ∈ s <;> simp [h, hy]

theorem updateConn_of_get {st : SState} {c : Nat} {ws : WS} (f : WS → WS)
    (hc : jsGet st.conns c = some ws) :
    updateConn st c f = { st with conns := jsSet st.conns c (f ws) } := by
  unfold updateConn
  rw [hc]

theorem clients_updateConn (st : SState) (c : Nat) (f : WS → WS) :
    (updateConn st c f).clients = st.clients := by
  unfold updateConn
  cases jsGet st.conns c <;> rfl

theorem projectClients_updateConn (st : SState) (c : Nat) (f : WS → WS) :
    (updateConn st c f).projectClients = st.projectClients := by
  unfold updateConn
  cases jsGet st.conns c <;> rfl

theorem getConn_updateConn_self {st : SState} {c : Nat} {ws : WS} (f : WS → WS)
    (hc : getConn st c = some ws) :
    getConn (updateConn st c f) c = some (f ws) := by
  unfold getConn at hc ⊢
  rw [updateConn_of_get f hc]
  exact jsGet_jsSet_self st.conns c (f ws)

theorem projectClients_cleanupClients (st : SState) (c : Nat) (u : Option String) :
    (cleanupClients st c u).projectClients = st.projectClients := by
  cases u with
  | none => rfl
  | some uid =>
      cases hg : jsGet st.clients uid with
      | none => simp [cleanupClients, hg]
      | some s =>
          by_cases h : (setDelete s c).isEmpty <;> simp [cleanupClients, hg, h]

theorem length_filter_ne {l : List Nat} {a : Nat} (hn : l.Nodup) (ha : a ∈ l) :
    (l.filter (fun x => decide (x ≠ a))).length = l.length - 1 := by
  have hfc : l.filter (fun x => decide (x ≠ a)) = l.filter (fun x => x != a) := by
    apply List.filter_congr
    intro x _
    by_cases hxa : x = a <;> simp [hxa]
  have he : l.erase a = l.filter (fun x => x != a) := List.Nodup.erase_eq_filter hn a
  have hl : (l.erase a).length + 1 = l.length := List.length_erase_add_one ha
  rw [hfc, ← he]
  omega

theorem length_filter_eq_one {l : List Nat} {x : Nat} (hn : l.Nodup) (hx : x ∈ l) :
    (l.filter (fun y => decide (y = x))).length = 1 := by
  induction l with
  | nil => cases hx
  | cons b t ih =>
      obtain ⟨hb, ht⟩ := List.nodup_cons.mp hn
      by_cases hbx : b = x
      · subst hbx
        have hnil : t.filter (fun y => decide (y = b)) = [] := by
          apply List.filter_eq_nil_iff.mpr
          intro a ha
          simp only [decide_eq_true_eq]
          exact fun e => hb (e ▸ ha)
        simp [List.filter_cons, hnil]
      · have hx2 : x ∈ t := by
          rcases List.mem_cons.mp hx with h1 | h1
          · exact absurd h1.symm hbx
          · exact h1
        rw [List.filter_cons]
        simp only [hbx, decide_eq_true_eq, if_false]
        exact ih ht hx2

theorem broadcast_not_to_sender (st : SState) (pid : String) (msg : OutMsg) (c : Nat) :
    (broadcastToProject st pid msg (some c)).filter (fun x => decide (x.1 = c)) = [] := by
  unfold broadcastToProject
  cases h : jsGet st.projectClients pid with
  | none => rfl
  | some members =>
      simp only []
      apply List.filter_eq_nil_iff.mpr
      intro x hx
      rcases List.mem_map.mp hx with ⟨y, hy, rfl⟩
      have hcond := (List.mem_filter.mp hy).2
      simp only [Bool.and_eq_true, decide_eq_true_eq] at hcond
      simp only [decide_eq_true_eq]
      intro hyc
      exact hcond.1 (by rw [hyc])

/-! The claims. -/

/-- Claim C1, counterexample: a `project_update` from the unauthenticated
socket of `stUnauth` produces no reply at all — in particular no error reply
— refuting the claim that every privileged type answers an error. -/
theorem C1_counterexample :
    handleProjectUpdate stUnauth 0 "p" 7 = (stUnauth, []) := by
  decide

/-- Claim C1 as amended: on a socket with no authenticated user id,
`join_project` replies with an authentication-required error, while
`project_update`, `code_change` and `cursor_position` silently send nothing;
in every case no success reply is sent and the whole state — room directory
and presence index included — is unchanged. -/
theorem C1_unauth_privileged (access : String → String → Option String)
    (st : SState) (c : Nat) (ws : WS) (p : Option String) (pl : String) (now : Nat)
    (hc : getConn st c = some ws) (hu : ws.userId = none) :
    handleJoinProject access st c p = (st, [(c, .error "Authentication required")])
    ∧ handleProjectUpdate st c pl now = (st, [])
    ∧ handleCodeChange st c pl now = (st, [])
    ∧ handleCursorPosition st c pl now = (st, []) := by
  unfold handleJoinProject handleProjectUpdate handleCodeChange handleCursorPosition
  rw [hc]
  cases hp : ws.projectId <;> simp [hu, hp]

/-- Claim C1, witness for the amended theorem at a concrete socket. -/
theorem C1_witness :
    handleJoinProject accessNone stUnauth 0 none
      = (stUnauth, [(0, .error "Authentication required")]) :=
  (C1_unauth_privileged accessNone stUnauth 0 ⟨none, none, true, true⟩
    none "p" 7 rfl rfl).1

/-- Claim C2, counterexample: socket 0 of `stOneRoom` is a member of `r1`
and successfully joins `r2` (the reply is `project_joined`), yet afterwards
it is still in `r1`'s member set — there is no auto-leave. -/
theorem C2_counterexample :
    (handleJoinProject accessR2 stOneRoom 0 (some "r2")).2
      = [(0, .projectJoined "r2" "P2")]
    ∧ roomHas (handleJoinProject accessR2 stOneRoom 0 (some "r2")).1 "r1" 0 := by
  decide

/-- Claim C2 as amended: a successful `join_project` for a different room
`r2` overwrites the socket's room id and adds the socket to `r2`'s member
set, but does not remove it from `r1`'s member set — after the join the
socket is a member of both rooms' sets. -/
theorem C2_join_keeps_old_room (access : String → String → Option String)
    (st : SState) (c : Nat) (ws : WS) (uid r1 r2 name : String)
    (hc : getConn st c = some ws) (hu : ws.userId = some uid)
    (hr : ws.projectId = some r1) (hm : roomHas st r1 c)
    (hne : r1 ≠ r2) (ha : access r2 uid = some name) :
    roomHas (handleJoinProject access st c (some r2)).1 r1 c
    ∧ roomHas (handleJoinProject access st c (some r2)).1 r2 c
    ∧ getConn (handleJoinProject access st c (some r2)).1 c
        = some { ws with projectId := some r2 } := by
  have hc0 : jsGet st.conns c = some ws := hc
  unfold handleJoinProject
  rw [hc]
  simp only [hu, ha]
  rw [updateConn_of_get (fun w => { w with projectId := some r2 }) hc0]
  refine ⟨?_, ?_, ?_⟩
  · unfold roomHas at hm ⊢
    simp only [jsGet_jsSet_ne _ _ _ _ hne]
    exact hm
  · unfold roomHas
    simp only [jsGet_jsSet_self, Option.getD_some]
    exact mem_setAdd_self _ _
  · unfold getConn
    simp only [hu]
    exact jsGet_jsSet_self st.conns c _

/-- Claim C2, witness for the amended theorem at a concrete socket. -/
theorem C2_witness :
    roomHas (handleJoinProject accessR2 stOneRoom 0 (some "r2")).1 "r1" 0
    ∧ roomHas (handleJoinProject accessR2 stOneRoom 0 (some "r2")).1 "r2" 0
    ∧ getConn (handleJoinProject accessR2 stOneRoom 0 (some "r2")).1 0
        = some ⟨some "u", some "r2", true, true⟩ :=
  C2_join_keeps_old_room accessR2 stOneRoom 0 ⟨some "u", some "r1", true, true⟩
    "u" "r1" "r2" "P2" rfl rfl rfl (by decide) (by decide) (by decide)

/-- Claim C3, counterexample: a message with the unrecognized type `bogus`
sends nothing back — the claimed structured error reply never happens for
unknown types (only for unparsable frames). -/
theorem C3_counterexample :
    (routeFrame verifyNone accessNone stUnauth 0 (some (.unknown "bogus")) 0).2
      = [] := by
  decide

/-- Claim C3 as amended: an unparsable frame yields the structured reply
`error "Invalid message format"` with no other state change, while a message
whose type is outside the enumeration yields no reply at all (it is only
logged); neither closes the connection or touches the state. -/
theorem C3_unknown_vs_malformed (verify : String → Except String UserRec)
    (access : String → String → Option String)
    (st : SState) (c : Nat) (t : String) (now : Nat) :
    routeFrame verify access st c (some (.unknown t)) now = (st, [])
    ∧ routeFrame verify access st c none now
        = (st, [(c, .error "Invalid message format")]) :=
  ⟨rfl, rfl⟩

/-- Claim C4: evaluation at the failing input.  In `stStale`, socket 0 (in
room `p` together with the live socket 1) missed its heartbeat probe; the
sweep runs `cleanupConnection` and then `terminate()`, whose `close` event
runs `cleanupConnection` again, and socket 1 receives `user_left` twice. -/
theorem C4_double_user_left :
    (sweepConnection stStale 0).2
      = [(1, .userLeft (some "u") "p"), (1, .userLeft (some "u") "p")] := by
  decide

/-- Claim C5: broadcasting to an unknown room id delivers nothing and raises
no error; broadcasting to a room whose only member is the sender delivers
nothing; and broadcasting to a room of N members, all open and including the
sender, performs exactly N−1 deliveries, exactly one to each member other
than the sender. -/
theorem C5_broadcast_deliveries (st : SState) (pid : String) (msg : OutMsg) (s : Nat) :
    (jsGet st.projectClients pid = none →
      broadcastToProject st pid msg (some s) = [])
    ∧ (jsGet st.projectClients pid = some [s] →
      broadcastToProject st pid msg (some s) = [])
    ∧ (∀ members, jsGet st.projectClients pid = some members → members.Nodup →
        s ∈ members → (∀ x ∈ members, connIsOpen st x = true) →
        (broadcastToProject st pid msg (some s)).length = members.length - 1
        ∧ ∀ x ∈ members, x ≠ s →
            ((broadcastToProject st pid msg (some s)).filter
              (fun e => decide (e = (x, msg)))).length = 1) := by
  refine ⟨?_, ?_, ?_⟩
  · intro h
    unfold broadcastToProject
    rw [h]
  · intro h
    unfold broadcastToProject
    rw [h]
    simp
  · intro members hm hnd hs hopen
    unfold broadcastToProject
    rw [hm]
    simp only []
    have hfc : members.filter (fun c => decide (some c ≠ some s) && connIsOpen st c)
        = members.filter (fun x => decide (x ≠ s)) := by
      apply List.filter_congr
      intro x hx
      rw [hopen x hx]
      by_cases hxs : x = s <;> simp [hxs]
    rw [hfc]
    constructor
    · rw [List.length_map]
      exact length_filter_ne hnd hs
    · intro x hx hxs
      rw [List.filter_map, List.length_map]
      have hfc2 : (members.filter (fun y => decide (y ≠ s))).filter
            ((fun e : Nat × OutMsg => decide (e = (x, msg))) ∘ (fun c => (c, msg)))
          = (members.filter (fun y => decide (y ≠ s))).filter
              (fun y => decide (y = x)) := by
        apply List.filter_congr
        intro y hy
        by_cases hyx : y = x <;> simp [Function.comp, Prod.mk.injEq, hyx]
      rw [hfc2]
      apply length_filter_eq_one (List.Nodup.filter _ hnd)
      exact List.mem_filter.mpr ⟨hx, by simp [hxs]⟩

/-- Claim C5, witness: in `stTrio` the room `p` has the three open members
0, 1, 2, and a broadcast excluding sender 0 performs exactly 3 − 1
deliveries. -/
theorem C5_witness :
    (broadcastToProject stTrio "p" .pong (some 0)).length = 3 - 1 :=
  ((C5_broadcast_deliveries stTrio "p" .pong 0).2.2 [0, 1, 2] rfl
    (by decide) (by decide) (by decide)).1

/-- Claim C6, counterexample: socket 0 is the sole member of room `r` in
`stSolo`; after `leave_project` the directory still has an entry for `r`,
now mapping it to the empty member set — the claimed garbage collection does
not happen on `leave_project`. -/
theorem C6_counterexample :
    jsGet (handleLeaveProject stSolo 0 (some "r")).1.projectClients "r"
      = some [] := by
  decide

/-- Claim C6 as amended: connection cleanup does delete a room entry whose
member set becomes empty, but `leave_project` does not — it leaves the empty
member set in the directory, so the stated invariant fails after
`leave_project` and holds only on the cleanup path. -/
theorem C6_empty_room_entries (st : SState) (c : Nat) (ws : WS) (pid : String)
    (p : Option String)
    (hc : getConn st c = some ws) (hp : ws.projectId = some pid)
    (hm : jsGet st.projectClients pid = some [c]) :
    jsGet (cleanupConnection st c).1.projectClients pid = none
    ∧ jsGet (handleLeaveProject st c p).1.projectClients pid = some [] := by
  have hsd : setDelete [c] c = [] := by simp [setDelete]
  constructor
  · unfold cleanupConnection cleanupProject
    rw [hc]
    simp only [hp, projectClients_cleanupClients, hm]
    simp [hsd, jsGet_jsDelete_self]
  · unfold handleLeaveProject
    rw [hc]
    simp only [hp, hm]
    simp [hsd, projectClients_updateConn, jsGet_jsSet_self]

/-- Claim C6, witness for the amended theorem at a concrete socket. -/
theorem C6_witness :
    jsGet (cleanupConnection stSolo 0).1.projectClients "r" = none
    ∧ jsGet (handleLeaveProject stSolo 0 (some "r")).1.projectClients "r"
        = some [] :=
  C6_empty_room_entries stSolo 0 ⟨some "u", some "r", true, true⟩ "r" (some "r")
    rfl rfl rfl

/-- Claim C7: for an authenticated socket, `join_project` fails exactly when
the access check denies — on denial the reply is the authorization error and
the whole state (room directory, presence index, the socket's room id) is
returned unchanged — and on a grant the socket receives `project_joined`, is
a member of the room afterwards (the entry being created if absent), and its
room id is the joined project. -/
theorem C7_join_iff_access (access : String → String → Option String)
    (st : SState) (c : Nat) (ws : WS) (uid pid : String)
    (hc : getConn st c = some ws) (hu : ws.userId = some uid) :
    (access pid uid = none →
      handleJoinProject access st c (some pid)
        = (st, [(c, .error "Project not found or access denied")]))
    ∧ ∀ name, access pid uid = some name →
        (c, OutMsg.projectJoined pid name)
            ∈ (handleJoinProject access st c (some pid)).2
        ∧ roomHas (handleJoinProject access st c (some pid)).1 pid c
        ∧ getConn (handleJoinProject access st c (some pid)).1 c
            = some { ws with projectId := some pid } := by
  have hc0 : jsGet st.conns c = some ws := hc
  constructor
  · intro ha
    unfold handleJoinProject
    rw [hc]
    simp [hu, ha]
  · intro name ha
    unfold handleJoinProject
    rw [hc]
    simp only [hu, ha]
    rw [updateConn_of_get (fun w => { w with projectId := some pid }) hc0]
    refine ⟨?_, ?_, ?_⟩
    · simp
    · unfold roomHas
      simp only [jsGet_jsSet_self, Option.getD_some]
      exact mem_setAdd_self _ _
    · unfold getConn
      simp only [hu]
      exact jsGet_jsSet_self st.conns c _

/-- Claim C7, witness: user `u` is granted project `p` and the join takes
effect. -/
theorem C7_witness :
    (0, OutMsg.projectJoined "p" "Proj")
        ∈ (handleJoinProject accessP stAuthedOnly 0 (some "p")).2
    ∧ roomHas (handleJoinProject accessP stAuthedOnly 0 (some "p")).1 "p" 0
    ∧ getConn (handleJoinProject accessP stAuthedOnly 0 (some "p")).1 0
        = some ⟨some "u", some "p", true, true⟩ :=
  (C7_join_iff_access accessP stAuthedOnly 0 ⟨some "u", none, true, true⟩
    "u" "p" rfl rfl).2 "Proj" (by decide)

/-- Claim C8: from an authenticated socket in a room, each of the three
relay handlers leaves the state unchanged and hands exactly one message to
the broadcaster for the socket's room, excluding the sender, whose payload
is the inbound payload stamped with the sender's user id and the
server-assigned timestamp, under outbound types `project_updated`,
`code_changed`, `cursor_moved` respectively — and sends nothing else. -/
theorem C8_relay_stamps (st : SState) (c : Nat) (ws : WS) (uid pid : String)
    (pl : String) (now : Nat)
    (hc : getConn st c = some ws) (hu : ws.userId = some uid)
    (hp : ws.projectId = some pid) :
    handleProjectUpdate st c pl now
      = (st, broadcastToProject st pid (.projectUpdated pl uid now) (some c))
    ∧ handleCodeChange st c pl now
      = (st, broadcastToProject st pid (.codeChanged pl uid now) (some c))
    ∧ handleCursorPosition st c pl now
      = (st, broadcastToProject st pid (.cursorMoved pl uid now) (some c)) := by
  unfold handleProjectUpdate handleCodeChange handleCursorPosition
  rw [hc]
  simp [hu, hp]

/-- Claim C8, witness at a concrete socket of `stTrio`. -/
theorem C8_witness :
    handleProjectUpdate stTrio 0 "diff" 5
      = (stTrio, broadcastToProject stTrio "p" (.projectUpdated "diff" "u" 5) (some 0)) :=
  (C8_relay_stamps stTrio 0 ⟨some "u", some "p", true, true⟩ "u" "p" "diff" 5
    rfl rfl rfl).1

/-- Claim C9: on any socket whatever — unauthenticated, roomless, or in a
room other than the one named in the payload — `leave_project` sends the
caller exactly one message, a `project_left` reply echoing the payload's
`projectId` unchecked. -/
theorem C9_leave_always_replies (st : SState) (c : Nat) (p : Option String) :
    (handleLeaveProject st c p).2.filter (fun x => decide (x.1 = c))
      = [(c, OutMsg.projectLeft p)] := by
  unfold handleLeaveProject
  cases hc : getConn st c with
  | none => simp
  | some ws =>
      cases hp : ws.projectId with
      | none => simp [hp]
      | some pid =>
          cases hm : jsGet st.projectClients pid with
          | none => simp [hp, hm]
          | some members =>
              simp [hp, hm, List.filter_append, broadcast_not_to_sender]

/-- Claim C10: a second successful `auth` on an already-authenticated socket
under a different user id overwrites the socket's user id and registers the
socket in the new user's presence set while leaving the old user's presence
entry untouched — afterwards the socket sits in both presence sets. -/
theorem C10_reauth_dual_presence (verify : String → Except String UserRec)
    (st : SState) (c : Nat) (ws : WS) (u1 t : String) (u : UserRec) (s1 : List Nat)
    (hc : getConn st c = some ws) (hu : ws.userId = some u1)
    (hv : verify t = .ok u) (hne : u1 ≠ u.id)
    (hs : jsGet st.clients u1 = some s1) (hcs : c ∈ s1) :
    getConn (handleAuthentication verify st c (some t)).1 c
      = some { ws with userId := some u.id }
    ∧ jsGet (handleAuthentication verify st c (some t)).1.clients u1 = some s1
    ∧ presenceHas (handleAuthentication verify st c (some t)).1 u.id c
    ∧ presenceHas (handleAuthentication verify st c (some t)).1 u1 c := by
  have hc0 : jsGet st.conns c = some ws := hc
  unfold handleAuthentication
  simp only [hv]
  rw [updateConn_of_get (fun w => { w with userId := some u.id }) hc0]
  refine ⟨?_, ?_, ?_, ?_⟩
  · unfold getConn
    simp only []
    exact jsGet_jsSet_self st.conns c _
  · simp only [jsGet_jsSet_ne _ _ _ _ hne]
    exact hs
  · unfold presenceHas
    simp only [jsGet_jsSet_self, Option.getD_some]
    exact mem_setAdd_self _ _
  · unfold presenceHas
    simp only [jsGet_jsSet_ne _ _ _ _ hne, hs, Option.getD_some]
    exact hcs

/-- Claim C10, witness: socket 0, authenticated as `u1`, re-authenticates
with a token for `u2` and ends up in both presence sets. -/
theorem C10_witness :
    getConn (handleAuthentication verifyTok2 stFirstUser 0 (some "tok2")).1 0
      = some ⟨some "u2", none, true, true⟩
    ∧ jsGet (handleAuthentication verifyTok2 stFirstUser 0 (some "tok2")).1.clients "u1"
        = some [0]
    ∧ presenceHas (handleAuthentication verifyTok2 stFirstUser 0 (some "tok2")).1 "u2" 0
    ∧ presenceHas (handleAuthentication verifyTok2 stFirstUser 0 (some "tok2")).1 "u1" 0 :=
  C10_reauth_dual_presence verifyTok2 stFirstUser 0 ⟨some "u1", none, true, true⟩
    "u1" "tok2" ⟨"u2", "e2", "d2"⟩ [0] rfl rfl rfl (by decide) rfl (by decide)

end Gateway
